import Mathlib

set_option maxHeartbeats 1000000

/-!
Verification development for the read/write-set analysis of
`language/move-prover/bytecode/src/read_write_set_analysis.rs`.

The analysis source file is embedded shallowly below.  The path-indexed
container (`AccessPathTrie`) and the address/path data model live in sibling
modules of the repository (`access_path_trie`, `access_path`) that are
consumed here only through their interface; following the specification
(section 3 and section 6), a trie is modelled as a finite map from access
paths to values, realised as an association list, with strong (overwrite)
and weak (join) update operations.  Panics in the source are modelled as
`Except` errors.
-/

-- =================================================================================================
-- Data model

/-- An access to local or global state (source: `enum Access`). -/
inductive Access : Type
  | borrow
  | read
  | write
  | readWriteBorrow
deriving DecidableEq, Repr

/-- Result flag of an abstract-domain join (source: `JoinResult` of the dataflow framework). -/
inductive JoinResult : Type
  | changed
  | unchanged
deriving DecidableEq, Repr

/-- Source: `impl AbstractDomain for Access`.  The Rust method mutates `self` and
returns a `JoinResult`; it is modelled as returning the new value together with
the flag.  Identical values are unchanged; if either operand is `Borrow` the
result is the other operand; otherwise the result is `ReadWriteBorrow`. -/
def Access.join (a b : Access) : Access × JoinResult :=
  if a = b then (a, .unchanged)
  else
    let res : Access :=
      match a, b with
      | .borrow, x => x
      | x, .borrow => x
      | _, _ => .readWriteBorrow
    (res, .changed)

/-- The value component of `Access.join`. -/
def Access.join_val (a b : Access) : Access :=
  (Access.join a b).1

/-- Source: `impl PartialOrd for Access` (the method `partial_cmp`): equal values
compare equal, `Borrow` is below everything, `ReadWriteBorrow` is above
everything, and `Read`/`Write` are incomparable. -/
def Access.cmpo (a b : Access) : Option Ordering :=
  if a = b then some .eq
  else
    match a, b with
    | .borrow, _ => some .lt
    | _, .borrow => some .gt
    | .readWriteBorrow, _ => some .gt
    | _, .readWriteBorrow => some .lt
    | _, _ => none

/-- Derived order: `a` is below `b` when `Access.cmpo` reports `lt` or `eq`. -/
def Access.le (a b : Access) : Bool :=
  match Access.cmpo a b with
  | some .lt => true
  | some .eq => true
  | _ => false

/-- Order on optional access kinds; an absent entry is below everything. -/
def opt_access_le : Option Access → Option Access → Bool
  | none, _ => true
  | some _, none => false
  | some a, some b => Access.le a b

/-- Modelled from the spec: type arguments of the host program model are opaque
identifiers with structural equality. -/
abbrev MvType := Nat

/-- Modelled from the spec: module identifiers are opaque. -/
abbrev ModuleId := Nat

/-- Modelled from the spec: struct identifiers are opaque. -/
abbrev StructId := Nat

/-- Modelled from the spec: a statically known address literal. -/
abbrev AddrConst := Nat

/-- Modelled from the spec: the key of a global resource, `(module, struct-id,
type-arguments)`. -/
structure StructKey where
  mid : ModuleId
  sid : StructId
  types : List MvType
deriving DecidableEq, Repr

/-- Modelled from the spec (section 3): an offset of an access path is a struct
field, a global-resource projection, or a collection-index marker. -/
inductive Offset : Type
  | field (f : Nat)
  | global (g : StructKey)
  | vectorIndex
deriving DecidableEq, Repr

/-- Modelled from the spec (section 3): the root of an access path is a local
slot (which doubles as the footprint placeholder for a formal parameter), a
return slot, or a global resource rooted at a constant address. -/
inductive Root : Type
  | loc (i : Nat)
  | ret (i : Nat)
  | global (c : AddrConst) (g : StructKey)
deriving DecidableEq, Repr

/-- Modelled from the spec (section 3): an access path is a root plus a sequence
of offsets. -/
structure AccessPath where
  root : Root
  offsets : List Offset
deriving DecidableEq, Repr

/-- Modelled from the spec (section 3): an abstract address value is either a
symbolic footprint path or a concrete address constant. -/
inductive Addr : Type
  | footprint (ap : AccessPath)
  | constant (c : AddrConst)
deriving DecidableEq, Repr

/-- Modelled from the spec (section 3): an abstract address set. -/
abbrev AbsAddr := List Addr

/-- Extend an access path by a list of further offsets. -/
def AccessPath.extend (ap : AccessPath) (offs : List Offset) : AccessPath :=
  ⟨ap.root, ap.offsets ++ offs⟩

/-- Extend an access path by one offset (source: `AccessPath::add_offset`). -/
def AccessPath.add_offset (ap : AccessPath) (o : Offset) : AccessPath :=
  ⟨ap.root, ap.offsets ++ [o]⟩

/-- Source call site `AccessPath::new_global_constant(c, g)`: a fresh path
rooted at the global resource `c/g`. -/
def AccessPath.new_global_constant (c : AddrConst) (g : StructKey) : AccessPath :=
  ⟨Root.global c g, []⟩

/-- Source call site `AccessPath::new_address_constant(c, mid, sid, types)`. -/
def AccessPath.new_address_constant (c : AddrConst) (mid : ModuleId) (sid : StructId)
    (types : List MvType) : AccessPath :=
  ⟨Root.global c ⟨mid, sid, types⟩, []⟩

/-- Source call site `Addr::add_struct_offset`: resolve an address to the global
resource path it denotes, by appending a global-resource offset to a footprint
path, or by creating a fresh global root for a constant address. -/
def Addr.add_struct_offset (a : Addr) (mid : ModuleId) (sid : StructId)
    (types : List MvType) : AccessPath :=
  match a with
  | .footprint ap => ap.add_offset (Offset.global ⟨mid, sid, types⟩)
  | .constant c => AccessPath.new_address_constant c mid sid types

/-- Source call site `AbsAddr::footprint`. -/
def AbsAddr.footprint (ap : AccessPath) : AbsAddr :=
  [Addr.footprint ap]

/-- Source call site `AbsAddr::constant`. -/
def AbsAddr.constant (c : AddrConst) : AbsAddr :=
  [Addr.constant c]

/-- Source call site `AbsAddr::formal`: the fresh symbolic address of formal
parameter `i`. -/
def AbsAddr.formal (i : Nat) : AbsAddr :=
  [Addr.footprint ⟨Root.loc i, []⟩]

/-- Source call site `AbsAddr::footprint_paths`: the footprint paths contained
in an abstract address set. -/
def AbsAddr.footprint_paths (a : AbsAddr) : List AccessPath :=
  a.filterMap (fun ad =>
    match ad with
    | .footprint ap => some ap
    | .constant _ => none)

/-- Modelled from the spec (section 4.2): extend every footprint path in the set
by `o`; a constant address has no field or index extension. -/
def AbsAddr.add_offset (a : AbsAddr) (o : Offset) : AbsAddr :=
  a.filterMap (fun ad =>
    match ad with
    | .footprint ap => some (.footprint (ap.add_offset o))
    | .constant _ => none)

/-- Modelled from the spec (section 4.4 step 4): append a list of offsets to an
address.  A constant address with no offsets stays itself; a constant address
whose first offset is a global-resource projection becomes a footprint path
freshly rooted at that global. -/
def Addr.append_offsets (a : Addr) (offs : List Offset) : List Addr :=
  match a, offs with
  | .footprint ap, offs => [.footprint (ap.extend offs)]
  | .constant c, [] => [.constant c]
  | .constant c, Offset.global g :: rest => [.footprint ⟨Root.global c g, rest⟩]
  | .constant _, _ => []

/-- Source call site `AccessPath::prepend_addrs`: resolve the path relative to
each address in the given set (`apply_summary` invokes this with an
offset-less formal path, where it is the identity on the set). -/
def AccessPath.prepend_addrs (ap : AccessPath) (addrs : AbsAddr) : AbsAddr :=
  addrs.flatMap (fun a => a.append_offsets ap.offsets)

-- =================================================================================================
-- The path-indexed container

/-- Modelled from the spec (sections 3 and 6): the path-indexed container is a
finite map from access paths to values, realised as an association list of
`(path, value)` pairs. -/
abbrev AccessPathTrie (α : Type) := List (AccessPath × α)

/-- Modelled from the spec: the entries of a trie rooted at `r`, as pairs of an
offset list and a value (the subtree of `r`). -/
abbrev SubTrie (α : Type) := List (List Offset × α)

/-- Look up the value stored at an exact access path. -/
def trie_lookup {α : Type} (t : AccessPathTrie α) (ap : AccessPath) : Option α :=
  match t with
  | [] => none
  | (k, v) :: rest => if k = ap then some v else trie_lookup rest ap

/-- Remove every entry stored at an exact access path. -/
def trie_erase {α : Type} (t : AccessPathTrie α) (ap : AccessPath) : AccessPathTrie α :=
  match t with
  | [] => []
  | (k, v) :: rest =>
    if k = ap then trie_erase rest ap else (k, v) :: trie_erase rest ap

/-- Modelled from the spec (section 6 `updateAccessPath(path, value, strong)`
and the glossary: strong = overwrite): set the entry at `ap` to exactly
`data`; `none` erases the entry. -/
def update_access_path {α : Type} (t : AccessPathTrie α) (ap : AccessPath)
    (data : Option α) : AccessPathTrie α :=
  match data with
  | some a => (ap, a) :: trie_erase t ap
  | none => trie_erase t ap

/-- Modelled from the spec (section 6 `updateAccessPath(path, value, weak)` and
the glossary: weak = join with the existing value). -/
def update_access_path_weak (t : AccessPathTrie Access) (ap : AccessPath)
    (a : Access) : AccessPathTrie Access :=
  match trie_lookup t ap with
  | some old => (ap, Access.join_val old a) :: trie_erase t ap
  | none => (ap, a) :: trie_erase t ap

/-- Source call site `get_local`: the address set currently bound to local
slot `i`. -/
def get_local {α : Type} (t : AccessPathTrie α) (i : Nat) : Option α :=
  trie_lookup t ⟨Root.loc i, []⟩

/-- Source call site `local_exists`: whether local slot `i` has a binding. -/
def local_exists {α : Type} (t : AccessPathTrie α) (i : Nat) : Bool :=
  (get_local t i).isSome

/-- Source call site `bind_local`: strong-update the value bound to local slot
`i` (spec section 4.2: `bindLocal(slot, addrs)`). -/
def bind_local {α : Type} (t : AccessPathTrie α) (i : Nat) (v : α) : AccessPathTrie α :=
  update_access_path t ⟨Root.loc i, []⟩ (some v)

/-- Source call site `bind_return`: strong-update the value bound to return
slot `i`. -/
def bind_return {α : Type} (t : AccessPathTrie α) (i : Nat) (v : α) : AccessPathTrie α :=
  update_access_path t ⟨Root.ret i, []⟩ (some v)

/-- Remove every entry rooted at `r`. -/
def remove_root {α : Type} (t : AccessPathTrie α) (r : Root) : AccessPathTrie α :=
  t.filter (fun e => decide (e.1.root ≠ r))

/-- Source call site `remove_local`: drop the whole subtree rooted at local
slot `i`. -/
def remove_local {α : Type} (t : AccessPathTrie α) (i : Nat) : AccessPathTrie α :=
  remove_root t (Root.loc i)

/-- The subtree of the trie rooted at `r`, as offset-list/value pairs. -/
def extract_node {α : Type} (t : AccessPathTrie α) (r : Root) : SubTrie α :=
  t.filterMap (fun e => if e.1.root = r then some (e.1.offsets, e.2) else none)

/-- Source call site `bind_local_node`: replace the whole subtree rooted at
local slot `i` by the given node. -/
def bind_local_node {α : Type} (t : AccessPathTrie α) (i : Nat) (node : SubTrie α) :
    AccessPathTrie α :=
  node.map (fun e => (AccessPath.mk (Root.loc i) e.1, e.2)) ++ remove_root t (Root.loc i)

/-- Whether some entry of the trie is rooted at `r` (source: the root node
exists, `get_local_node` is `Some`). -/
def has_root {α : Type} (t : AccessPathTrie α) (r : Root) : Bool :=
  t.any (fun e => decide (e.1.root = r))

/-- Whether the subtree rooted at `r` has a child, i.e. an entry with a
non-empty offset list (source: `node.children().is_empty()` is false). -/
def root_has_children {α : Type} (t : AccessPathTrie α) (r : Root) : Bool :=
  t.any (fun e => decide (e.1.root = r ∧ e.1.offsets ≠ []))

/-- Source call site `join_access_path(ap, node)`: join the subtree `node` into
the trie at path `ap`, preserving all child offsets. -/
def join_access_path (t : AccessPathTrie Access) (ap : AccessPath) :
    SubTrie Access → AccessPathTrie Access
  | [] => t
  | (offs, a) :: rest =>
    join_access_path (update_access_path_weak t (ap.extend offs) a) ap rest

/-- Source call site `accesses.join(&other)`: pointwise weak join of two access
tries. -/
def trie_join (t : AccessPathTrie Access) : AccessPathTrie Access → AccessPathTrie Access
  | [] => t
  | (ap, a) :: rest => trie_join (update_access_path_weak t ap a) rest

/-- Strong update at every path of the list with the same access kind. -/
def strong_update_list (t : AccessPathTrie Access) (a : Access) :
    List AccessPath → AccessPathTrie Access
  | [] => t
  | ap :: rest => strong_update_list (update_access_path t ap (some a)) a rest

/-- Weak update at every path of the list with the same access kind. -/
def weak_update_list (t : AccessPathTrie Access) (a : Access) :
    List AccessPath → AccessPathTrie Access
  | [] => t
  | ap :: rest => weak_update_list (update_access_path_weak t ap a) a rest

/-- Erase the entry at every path of the list. -/
def erase_paths {α : Type} (t : AccessPathTrie α) : List AccessPath → AccessPathTrie α
  | [] => t
  | ap :: rest => erase_paths (update_access_path t ap none) rest

-- =================================================================================================
-- Abstract state and errors

/-- The abstract state of the analysis (source: `struct ReadWriteSetState`):
the memory accessed so far and the mapping from locals to formal or global
roots. -/
structure ReadWriteSetState where
  accesses : AccessPathTrie Access
  locals : AccessPathTrie AbsAddr
deriving DecidableEq, Repr

/-- The empty abstract state (source: `impl Default for ReadWriteSetState`). -/
def ReadWriteSetState.default : ReadWriteSetState :=
  { accesses := [], locals := [] }

/-- The panics of the source file, modelled as typed failures:
`panic!("Unbound local ...")` in `copy_local`; the `expect("Unbound local")`
calls of `record_access`, `access_offset`, `assign_offset` and `write_ref`;
`panic!("Untracked local ... of address type")` in `get_global_paths`;
`expect("Unbound address local")` in the `BorrowGlobal` case;
`panic!("Bad offset type ... for address base")` in `apply_summary`;
`unimplemented!("Unsupported native function ...")` in `call_native_function`;
and `panic!("unsupported oper ...")` in `execute`. -/
inductive AnalysisErr : Type
  | copyUnboundLocal (i : Nat)
  | expectUnboundLocal
  | untrackedAddressLocal (i : Nat)
  | unboundAddressLocal
  | badOffsetForAddressBase (o : Offset)
  | unmodeledNative (m f : String)
  | unsupportedOper
deriving DecidableEq, Repr

/-- Source: `ReadWriteSetState::copy_local`.  Copy the contents of `rhs_index`
into `lhs_index`; fails if `rhs_index` is not bound. -/
def copy_local (s : ReadWriteSetState) (lhs_index rhs_index : Nat) :
    Except AnalysisErr ReadWriteSetState :=
  match get_local s.locals rhs_index with
  | none => .error (.copyUnboundLocal rhs_index)
  | some rhs_value => .ok { s with locals := bind_local s.locals lhs_index rhs_value }

/-- Source: `ReadWriteSetState::get_global_paths`.  The access paths rooted in
`addr_idx`/`mid::sid<types>`; fails if the address local is untracked. -/
def get_global_paths (s : ReadWriteSetState) (addr_idx : Nat) (mid : ModuleId)
    (sid : StructId) (types : List MvType) : Except AnalysisErr (List AccessPath) :=
  match get_local s.locals addr_idx with
  | none => .error (.untrackedAddressLocal addr_idx)
  | some addrs => .ok (addrs.map (fun v => v.add_struct_offset mid sid types))

/-- Source: `ReadWriteSetState::remove_global`.  Remove the local access paths
rooted at `addr_idx`/`mid::sid<types>` (a strong update to `None` on the
locals trie at each resolved path). -/
def remove_global (s : ReadWriteSetState) (addr_idx : Nat) (mid : ModuleId)
    (sid : StructId) (types : List MvType) : Except AnalysisErr ReadWriteSetState :=
  match get_global_paths s addr_idx mid sid types with
  | .error e => .error e
  | .ok paths => .ok { s with locals := erase_paths s.locals paths }

/-- Source: `ReadWriteSetState::add_global_access`.  Record an access of kind
`access` to each path `local_idx`/`mid::sid<types>`, by a weak update on the
accesses trie. -/
def add_global_access (s : ReadWriteSetState) (local_idx : Nat) (mid : ModuleId)
    (sid : StructId) (types : List MvType) (access : Access) :
    Except AnalysisErr ReadWriteSetState :=
  match get_global_paths s local_idx mid sid types with
  | .error e => .error e
  | .ok paths => .ok { s with accesses := weak_update_list s.accesses access paths }

/-- Source: `ReadWriteSetState::record_access`.  Record an access of kind
`access` on every footprint path bound to `local_idx` (a strong
`update_access_path` on the accesses trie); fails if the local is unbound. -/
def record_access (s : ReadWriteSetState) (local_idx : Nat) (access : Access) :
    Except AnalysisErr ReadWriteSetState :=
  match get_local s.locals local_idx with
  | none => .error .expectUnboundLocal
  | some addrs =>
    .ok { s with accesses := strong_update_list s.accesses access addrs.footprint_paths }

/-- Source: `ReadWriteSetState::access_offset`.  Record an access of kind
`access_type` to the path `base/offset`. -/
def access_offset (s : ReadWriteSetState) (base : Nat) (offset : Offset)
    (access_type : Access) : Except AnalysisErr ReadWriteSetState :=
  match get_local s.locals base with
  | none => .error .expectUnboundLocal
  | some borrowed =>
    let extended_aps := borrowed.add_offset offset
    .ok { s with
      accesses := strong_update_list s.accesses access_type extended_aps.footprint_paths }

/-- Re-seed each footprint path as its own footprint in the locals trie
(the loop body of `assign_offset` on `self.locals`). -/
def reseed_footprints (t : AccessPathTrie AbsAddr) : List AccessPath → AccessPathTrie AbsAddr
  | [] => t
  | ap :: rest => reseed_footprints (update_access_path t ap (some (AbsAddr.footprint ap))) rest

/-- Source: `ReadWriteSetState::assign_offset`.  Assign `ret = base/offset` and
record an access of kind `access_type` to `base/offset`. -/
def assign_offset (s : ReadWriteSetState) (ret base : Nat) (offset : Offset)
    (access_type : Access) : Except AnalysisErr ReadWriteSetState :=
  match get_local s.locals base with
  | none => .error .expectUnboundLocal
  | some borrowed =>
    let extended_aps := borrowed.add_offset offset
    let fps := extended_aps.footprint_paths
    .ok { s with
      locals := bind_local (reseed_footprints s.locals fps) ret extended_aps,
      accesses := strong_update_list s.accesses access_type fps }

/-- Strong update of every listed path of the locals trie to the given
address set (the loop body of `write_ref`). -/
def write_ref_list (t : AccessPathTrie AbsAddr) (v : AbsAddr) :
    List AccessPath → AccessPathTrie AbsAddr
  | [] => t
  | ap :: rest => write_ref_list (update_access_path t ap (some v)) v rest

/-- Source: `ReadWriteSetState::write_ref`.  If `rhs` is bound, overwrite the
stored value at every footprint path reachable from `lhs_ref` with the address
set of `rhs`. -/
def write_ref (s : ReadWriteSetState) (lhs_ref rhs : Nat) :
    Except AnalysisErr ReadWriteSetState :=
  match get_local s.locals rhs with
  | none => .ok s
  | some rhs_val =>
    match get_local s.locals lhs_ref with
    | none => .error .expectUnboundLocal
    | some lhs_paths =>
      .ok { s with locals := write_ref_list s.locals rhs_val lhs_paths.footprint_paths }

-- =================================================================================================
-- Summary composition (apply_summary)

/-- Modelled from the spec (section 4.4 step 1, also used in step 2):
substitute footprint addresses rooted at a formal with the corresponding
actual values, cartesian-expanding over multiple possible actuals. -/
def AbsAddr.substitute_footprint (actual_values : List AbsAddr) (v : AbsAddr) : AbsAddr :=
  v.flatMap (fun a =>
    match a with
    | .footprint ap =>
      match ap.root with
      | Root.loc i =>
        match actual_values[i]? with
        | some vals => vals.flatMap (fun b => b.append_offsets ap.offsets)
        | none => [a]
      | _ => [a]
    | .constant _ => [a])

/-- Modelled from the spec (section 4.4 step 2, source call site
`substitute_footprint` on the callee locals): substitute footprint values in
the stored data with their caller values.  In this embedding type parameters
and footprint-addressed global roots are not represented, so only the stored
address sets change; formal- and return-rooted path keys are left in place, to
be consumed by the later re-attachment and return-binding steps of
`apply_summary`. -/
def substitute_footprint_locals (actual_values : List AbsAddr) (_type_actuals : List MvType)
    (_caller_locals : AccessPathTrie AbsAddr) (t : AccessPathTrie AbsAddr) :
    AccessPathTrie AbsAddr :=
  t.map (fun e => (e.1, AbsAddr.substitute_footprint actual_values e.2))

/-- Modelled from the spec (section 4.4 step 3, source call site
`substitute_footprint_skip_data` on the callee accesses): the same path-root
substitution without value substitution.  Access kinds carry no addresses, and
in this embedding type parameters and footprint-addressed global roots are not
represented, so the substitution is the identity. -/
def substitute_footprint_skip_data (_actual_values : List AbsAddr)
    (_type_actuals : List MvType) (_caller_locals : AccessPathTrie AbsAddr)
    (t : AccessPathTrie Access) : AccessPathTrie Access :=
  t

/-- The `Addr::Constant` arm of `apply_summary` step (3) (source lines
100-113): every direct child of the formal's subtree must sit under a
global-resource offset `g`, and is then joined into the accesses at the fresh
root `c/g`; any other offset directly under a bare address constant is a
fatal invariant violation.  An entry with an empty offset list is the data of
the formal node itself, which the source does not visit (it only iterates
`node.children()`). -/
def attach_constant (c : AddrConst) (acc : AccessPathTrie Access) :
    SubTrie Access → Except AnalysisErr (AccessPathTrie Access)
  | [] => .ok acc
  | ([], _) :: rest => attach_constant c acc rest
  | (Offset.global g :: r, a) :: rest =>
    attach_constant c (update_access_path_weak acc ⟨Root.global c g, r⟩ a) rest
  | ((o :: _), _) :: _ => .error (.badOffsetForAddressBase o)

/-- The body of `apply_summary` step (3) for one resolved actual address
(source lines 96-114): a footprint actual has the formal's subtree joined at
its path; a constant actual has each global-offset child joined at a fresh
`c/g` root. -/
def attach_actual (acc : AccessPathTrie Access) (node : SubTrie Access) :
    Addr → Except AnalysisErr (AccessPathTrie Access)
  | .footprint ap => .ok (join_access_path acc ap node)
  | .constant c => attach_constant c acc node

/-- Attach the formal's subtree for every resolved actual address in turn. -/
def attach_addr_list (node : SubTrie Access) (acc : AccessPathTrie Access) :
    List Addr → Except AnalysisErr (AccessPathTrie Access)
  | [] => .ok acc
  | v :: rest =>
    match attach_actual acc node v with
    | .error e => .error e
    | .ok acc2 => attach_addr_list node acc2 rest

/-- Source: `apply_summary` step (3), lines 91-117: for each formal index `i`,
remove the subtree rooted at formal `i` from the caller-relative callee
accesses and re-attach it relative to each element of the actual value. -/
def reattach_formals (accs : AccessPathTrie Access) (callee : AccessPathTrie Access) :
    List (Nat × AbsAddr) → Except AnalysisErr (AccessPathTrie Access × AccessPathTrie Access)
  | [] => .ok (accs, callee)
  | (i, actual_v) :: rest =>
    let node := extract_node callee (Root.loc i)
    let callee2 := remove_root callee (Root.loc i)
    match attach_addr_list node accs
        ((AccessPath.mk (Root.loc i) []).prepend_addrs actual_v) with
    | .error e => .error e
    | .ok accs2 => reattach_formals accs2 callee2 rest

/-- Source: `apply_summary` step (4): bind return values in the caller locals;
for each return index with a binding at the callee's return root, strong-update
the caller destination slot with the already-substituted node. -/
def bind_returns (locals : AccessPathTrie AbsAddr) (callee_locals : AccessPathTrie AbsAddr) :
    List (Nat × Nat) → AccessPathTrie AbsAddr
  | [] => locals
  | (i, ret) :: rest =>
    let node := extract_node callee_locals (Root.ret i)
    let locals2 := if node.isEmpty then locals else bind_local_node locals ret node
    bind_returns locals2 (remove_root callee_locals (Root.ret i)) rest

/-- Source: `ReadWriteSetState::apply_summary`.  Apply `callee_summary` to the
caller state: (1)-(2) substitute footprint values in the callee summary,
(3) re-attach callee accesses rooted at formals relative to the actuals,
(4) bind return values, (5) join the remaining caller-relative callee accesses
into the caller accesses. -/
def apply_summary (s : ReadWriteSetState) (callee_summary : ReadWriteSetState)
    (actuals : List Nat) (type_actuals : List MvType) (returns : List Nat) :
    Except AnalysisErr ReadWriteSetState :=
  let actual_values : List AbsAddr :=
    actuals.map (fun i => (get_local s.locals i).getD [])
  let new_callee_locals :=
    substitute_footprint_locals actual_values type_actuals s.locals callee_summary.locals
  let new_callee_accesses :=
    substitute_footprint_skip_data actual_values type_actuals s.locals callee_summary.accesses
  match reattach_formals s.accesses new_callee_accesses actual_values.enum with
  | .error e => .error e
  | .ok (accs2, callee_rest) =>
    let locals2 := bind_returns s.locals new_callee_locals returns.enum
    .ok { accesses := trie_join accs2 callee_rest, locals := locals2 }

-- =================================================================================================
-- Native-function model table

/-- The `(module name, function name)` pairs carrying a hand-written model in
`call_native_function`. -/
def modeled_natives : List (String × String) :=
  [("BCS", "to_bytes"),
   ("Signer", "borrow_address"),
   ("Vector", "borrow_mut"), ("Vector", "borrow"),
   ("Vector", "length"), ("Vector", "is_empty"),
   ("Vector", "pop_back"),
   ("Vector", "push_back"), ("Vector", "append"), ("Vector", "swap"),
   ("Vector", "contains"),
   ("DiemAccount", "create_signer"),
   ("Vector", "empty"), ("Vector", "destroy_empty"),
   ("Event", "write_to_event_store"),
   ("Hash", "sha3_256"), ("Hash", "sha2_256"),
   ("Signature", "ed25519_validate_pubkey"), ("Signature", "ed25519_verify")]

/-- Source: `call_native_function`.  Execute `rets = module_name::fun_name(args)`
using a hand-written model; a pair absent from the table is a fatal failure
naming the missing function. -/
def call_native_function (s : ReadWriteSetState) (module_name fun_name : String)
    (args rets : List Nat) : Except AnalysisErr ReadWriteSetState :=
  let a0 := args.getD 0 0
  let r0 := rets.getD 0 0
  if (module_name, fun_name) = ("BCS", "to_bytes") then
    if local_exists s.locals a0 then record_access s a0 .read else .ok s
  else if (module_name, fun_name) = ("Signer", "borrow_address") then
    if local_exists s.locals a0 then
      match record_access s a0 .borrow with
      | .error e => .error e
      | .ok s1 => copy_local s1 r0 a0
    else .ok s
  else if (module_name, fun_name) = ("Vector", "borrow_mut") ∨
      (module_name, fun_name) = ("Vector", "borrow") then
    if local_exists s.locals a0 then
      match access_offset s a0 Offset.vectorIndex .read with
      | .error e => .error e
      | .ok s1 => assign_offset s1 r0 a0 Offset.vectorIndex .borrow
    else .ok s
  else if (module_name, fun_name) = ("Vector", "length") ∨
      (module_name, fun_name) = ("Vector", "is_empty") then
    if local_exists s.locals a0 then record_access s a0 .read else .ok s
  else if (module_name, fun_name) = ("Vector", "pop_back") then
    if local_exists s.locals a0 then
      match access_offset s a0 Offset.vectorIndex .read with
      | .error e => .error e
      | .ok s1 =>
        match access_offset s1 a0 Offset.vectorIndex .write with
        | .error e => .error e
        | .ok s2 => assign_offset s2 r0 a0 Offset.vectorIndex .read
    else .ok s
  else if (module_name, fun_name) = ("Vector", "push_back") ∨
      (module_name, fun_name) = ("Vector", "append") ∨
      (module_name, fun_name) = ("Vector", "swap") then
    if local_exists s.locals a0 then
      match access_offset s a0 Offset.vectorIndex .read with
      | .error e => .error e
      | .ok s1 => access_offset s1 a0 Offset.vectorIndex .write
    else .ok s
  else if (module_name, fun_name) = ("Vector", "contains") then
    if local_exists s.locals a0 then record_access s a0 .read else .ok s
  else if (module_name, fun_name) = ("DiemAccount", "create_signer") then
    if local_exists s.locals a0 then
      match record_access s a0 .read with
      | .error e => .error e
      | .ok s1 => copy_local s1 r0 a0
    else .ok s
  else if (module_name, fun_name) = ("Vector", "empty") ∨
      (module_name, fun_name) = ("Vector", "destroy_empty") then
    .ok s
  else if (module_name, fun_name) = ("Event", "write_to_event_store") then
    .ok s
  else if (module_name, fun_name) = ("Hash", "sha3_256") ∨
      (module_name, fun_name) = ("Hash", "sha2_256") then
    .ok s
  else if (module_name, fun_name) = ("Signature", "ed25519_validate_pubkey") ∨
      (module_name, fun_name) = ("Signature", "ed25519_verify") then
    .ok s
  else
    .error (.unmodeledNative module_name fun_name)

-- =================================================================================================
-- Transfer function

/-- Modelled from the host program model: address-typed constants are
distinguished from all other constant kinds (source: `enum Constant`). -/
inductive Constant : Type
  | boolean (b : Bool)
  | u8 (n : Nat)
  | u64 (n : Nat)
  | u128 (n : Nat)
  | address (a : AddrConst)
  | byteArray (bs : List Nat)
deriving DecidableEq, Repr

/-- The operations of the `Bytecode::Call` instruction handled by the transfer
function (source: `enum Operation`); `unsupportedOp` stands for the remaining
operation kinds of the host model, which the analysis rejects
(`panic!("unsupported oper ...")`). -/
inductive Operation : Type
  | borrowField (mid : ModuleId) (sid : StructId) (types : List MvType) (fld : Nat)
  | readRef
  | writeRef
  | freezeRef
  | borrowLoc
  | borrowGlobal (mid : ModuleId) (sid : StructId) (types : List MvType)
  | moveFrom (mid : ModuleId) (sid : StructId) (types : List MvType)
  | moveTo (mid : ModuleId) (sid : StructId) (types : List MvType)
  | existsOp (mid : ModuleId) (sid : StructId) (types : List MvType)
  | function (mid : ModuleId) (fid : Nat) (types : List MvType)
  | destroy
  | eq
  | neq
  | pack (mid : ModuleId) (sid : StructId) (types : List MvType)
  | unpack (mid : ModuleId) (sid : StructId) (types : List MvType)
  | castU8 | castU64 | castU128 | not | add | sub | mul | div | mod
  | bitOr | bitAnd | xor | shl | shr | lt | gt | le | ge | or | and
  | unsupportedOp
deriving DecidableEq, Repr

/-- The instructions handled by the transfer function (source: `enum
Bytecode`); attribute ids and abort actions carry no analysis content and are
omitted. -/
inductive Bytecode : Type
  | call (rets : List Nat) (oper : Operation) (args : List Nat)
  | load (lhs : Nat) (constant : Constant)
  | assign (lhs rhs : Nat)
  | ret (rets : List Nat)
  | abort
  | saveMem
  | prop
  | saveSpecVar
  | branch
  | jump
  | label
  | specBlock
  | nop
deriving DecidableEq, Repr

/-- The loop of the `BorrowGlobal` case (source lines 350-371): extend each
footprint address by the global offset, clearing the locals binding and
recording a `Borrow` access at the extended path; turn each constant address
into a footprint at the fresh global root. -/
def borrow_global_loop (g : StructKey) (acc_aps : AbsAddr) (s : ReadWriteSetState) :
    List Addr → AbsAddr × ReadWriteSetState
  | [] => (acc_aps, s)
  | Addr.footprint ap :: rest =>
    let extended_ap := ap.add_offset (Offset.global g)
    let s2 := { s with
      locals := update_access_path s.locals extended_ap none,
      accesses := update_access_path s.accesses extended_ap (some Access.borrow) }
    borrow_global_loop g (acc_aps ++ [Addr.footprint extended_ap]) s2 rest
  | Addr.constant c :: rest =>
    borrow_global_loop g (acc_aps ++ [Addr.footprint ⟨Root.global c g, []⟩]) s rest

/-- The two-phase `Ret` case: first read every returned local, then bind each
present value to the corresponding return root. -/
def bind_ret_list (t : AccessPathTrie AbsAddr) :
    List (Nat × Option AbsAddr) → AccessPathTrie AbsAddr
  | [] => t
  | (i, some v) :: rest => bind_ret_list (bind_return t i v) rest
  | (_, none) :: rest => bind_ret_list t rest

/-- Source: `impl TransferFunctions for ReadWriteSetAnalysis`, method
`execute`.  `cache` is the summary cache of the compositional analysis
(section 6 contract) and `names` resolves a function id to its module and
function identifiers for the native-model table. -/
def execute (cache : ModuleId × Nat → Option ReadWriteSetState)
    (names : ModuleId × Nat → String × String) (s : ReadWriteSetState) :
    Bytecode → Except AnalysisErr ReadWriteSetState
  | .call rets oper args =>
    match oper with
    | .borrowField _mid _sid _types fld =>
      if local_exists s.locals (args.getD 0 0) then
        assign_offset s (rets.getD 0 0) (args.getD 0 0) (Offset.field fld) Access.borrow
      else .ok s
    | .readRef =>
      if local_exists s.locals (args.getD 0 0) then
        match record_access s (args.getD 0 0) Access.read with
        | .error e => .error e
        | .ok s1 => copy_local s1 (rets.getD 0 0) (args.getD 0 0)
      else .ok s
    | .writeRef =>
      match record_access s (args.getD 0 0) Access.write with
      | .error e => .error e
      | .ok s1 => write_ref s1 (args.getD 0 0) (args.getD 1 0)
    | .freezeRef =>
      if local_exists s.locals (args.getD 0 0) then
        copy_local s (rets.getD 0 0) (args.getD 0 0)
      else .ok s
    | .borrowLoc =>
      if local_exists s.locals (args.getD 0 0) then
        copy_local s (rets.getD 0 0) (args.getD 0 0)
      else .ok s
    | .borrowGlobal mid sid types =>
      match add_global_access s (args.getD 0 0) mid sid types Access.borrow with
      | .error e => .error e
      | .ok s1 =>
        match get_local s1.locals (args.getD 0 0) with
        | none => .error .unboundAddressLocal
        | some addrs =>
          let (extended_aps, s2) := borrow_global_loop ⟨mid, sid, types⟩ [] s1 addrs
          .ok { s2 with locals := bind_local s2.locals (rets.getD 0 0) extended_aps }
    | .moveFrom mid sid types =>
      match add_global_access s (args.getD 0 0) mid sid types Access.write with
      | .error e => .error e
      | .ok s1 => remove_global s1 (args.getD 0 0) mid sid types
    | .moveTo mid sid types =>
      add_global_access s (args.getD 1 0) mid sid types Access.write
    | .existsOp mid sid types =>
      add_global_access s (args.getD 0 0) mid sid types Access.read
    | .function mid fid types =>
      match cache (mid, fid) with
      | some callee_summary => apply_summary s callee_summary args types rets
      | none =>
        call_native_function s (names (mid, fid)).1 (names (mid, fid)).2 args rets
    | .destroy => .ok { s with locals := remove_local s.locals (args.getD 0 0) }
    | .eq =>
      match (if local_exists s.locals (args.getD 0 0) then
          record_access s (args.getD 0 0) Access.read
        else .ok s) with
      | .error e => .error e
      | .ok s1 =>
        if local_exists s1.locals (args.getD 1 0) then
          record_access s1 (args.getD 1 0) Access.read
        else .ok s1
    | .neq =>
      match (if local_exists s.locals (args.getD 0 0) then
          record_access s (args.getD 0 0) Access.read
        else .ok s) with
      | .error e => .error e
      | .ok s1 =>
        if local_exists s1.locals (args.getD 1 0) then
          record_access s1 (args.getD 1 0) Access.read
        else .ok s1
    | .pack _mid _sid _types => .ok s
    | .unpack _mid _sid _types => .ok s
    | .castU8 | .castU64 | .castU128 | .not | .add | .sub | .mul | .div | .mod
    | .bitOr | .bitAnd | .xor | .shl | .shr | .lt | .gt | .le | .ge | .or | .and => .ok s
    | .unsupportedOp => .error .unsupportedOper
  | .load lhs constant =>
    match constant with
    | .address a => .ok { s with locals := bind_local s.locals lhs (AbsAddr.constant a) }
    | _ => .ok s
  | .assign lhs rhs =>
    match get_local s.locals rhs with
    | some rhs_data => .ok { s with locals := bind_local s.locals lhs rhs_data }
    | none => .ok { s with locals := remove_local s.locals lhs }
  | .ret rets =>
    let ret_vals : List (Option AbsAddr) := rets.map (fun r => get_local s.locals r)
    .ok { s with locals := bind_ret_list s.locals ret_vals.enum }
  | .abort => .ok s
  | .saveMem | .prop | .saveSpecVar | .branch | .jump | .label | .specBlock | .nop => .ok s

-- =================================================================================================
-- Summary extraction

/-- The interface of a function target needed by `to_summary`: parameters are
the local slots `0, ..., num_params - 1` of a procedure with `num_locals`
local slots. -/
structure FunctionTargetModel where
  num_params : Nat
  num_locals : Nat
deriving DecidableEq, Repr

/-- Source call site `fun_target.get_parameters()`. -/
def FunctionTargetModel.get_parameters (ft : FunctionTargetModel) : List Nat :=
  List.range ft.num_params

/-- Source call site `fun_target.get_non_parameter_locals()`. -/
def FunctionTargetModel.get_non_parameter_locals (ft : FunctionTargetModel) : List Nat :=
  (List.range ft.num_locals).filter (fun i => decide (ft.num_params ≤ i))

/-- Remove the subtree of every listed local slot. -/
def remove_locals_list (t : AccessPathTrie AbsAddr) : List Nat → AccessPathTrie AbsAddr
  | [] => t
  | i :: rest => remove_locals_list (remove_local t i) rest

/-- The second loop of `to_summary`: drop each parameter-rooted binding whose
node has no children. -/
def trim_params (t : AccessPathTrie AbsAddr) : List Nat → AccessPathTrie AbsAddr
  | [] => t
  | i :: rest =>
    trim_params
      (if has_root t (Root.loc i) && !root_has_children t (Root.loc i) then
        remove_local t i
      else t) rest

/-- Source: `ReadWriteSetAnalysis::to_summary`.  Remove every locals binding
rooted at a non-parameter local, then remove every remaining parameter-rooted
binding with no offsets; the accesses are exported unmodified. -/
def to_summary (s : ReadWriteSetState) (fun_target : FunctionTargetModel) :
    ReadWriteSetState :=
  { accesses := s.accesses,
    locals :=
      trim_params (remove_locals_list s.locals fun_target.get_non_parameter_locals)
        fun_target.get_parameters }

-- =================================================================================================
-- Lemmas about the access lattice

theorem Access.le_refl (a : Access) : Access.le a a = true := by
  cases a <;> rfl

theorem Access.le_trans (a b c : Access) (h1 : Access.le a b = true)
    (h2 : Access.le b c = true) : Access.le a c = true := by
  cases a <;> cases b <;> cases c <;> simp_all [Access.le, Access.cmpo]

theorem Access.le_join_left (a b : Access) : Access.le a (Access.join_val a b) = true := by
  cases a <;> cases b <;> rfl

theorem Access.le_join_right (a b : Access) : Access.le b (Access.join_val a b) = true := by
  cases a <;> cases b <;> rfl

theorem opt_access_le_refl (x : Option Access) : opt_access_le x x = true := by
  cases x with
  | none => rfl
  | some a => exact Access.le_refl a

theorem opt_access_le_trans (x y z : Option Access) (h1 : opt_access_le x y = true)
    (h2 : opt_access_le y z = true) : opt_access_le x z = true := by
  cases x <;> cases y <;> cases z <;> simp_all [opt_access_le]
  exact Access.le_trans _ _ _ h1 h2

-- =================================================================================================
-- Lemmas about the path-indexed container

theorem trie_lookup_erase {α : Type} (t : AccessPathTrie α) (ap x : AccessPath) :
    trie_lookup (trie_erase t ap) x = if x = ap then none else trie_lookup t x := by
  induction t with
  | nil => simp [trie_erase, trie_lookup]
  | cons e rest ih =>
    obtain ⟨k, v⟩ := e
    simp only [trie_erase]
    by_cases hk : k = ap
    · subst hk
      rw [if_pos rfl, ih]
      by_cases hx : x = k
      · simp [hx]
      · rw [if_neg hx, if_neg hx]
        simp only [trie_lookup, if_neg (Ne.symm hx)]
    · rw [if_neg hk]
      simp only [trie_lookup]
      by_cases hkx : k = x
      · subst hkx
        rw [if_pos rfl, if_neg (fun h : k = ap => hk h), if_pos rfl]
      · rw [if_neg hkx, if_neg hkx, ih]

theorem trie_lookup_update {α : Type} (t : AccessPathTrie α) (ap x : AccessPath)
    (d : Option α) :
    trie_lookup (update_access_path t ap d) x = if x = ap then d else trie_lookup t x := by
  cases d with
  | none => simp [update_access_path, trie_lookup_erase]
  | some a =>
    simp only [update_access_path, trie_lookup]
    by_cases hx : x = ap
    · subst hx; simp [trie_lookup_erase]
    · rw [if_neg (Ne.symm hx), trie_lookup_erase, if_neg hx, if_neg hx]

theorem trie_lookup_weak (t : AccessPathTrie Access) (ap x : AccessPath) (a : Access) :
    trie_lookup (update_access_path_weak t ap a) x =
      if x = ap then
        some (match trie_lookup t ap with
          | some old => Access.join_val old a
          | none => a)
      else trie_lookup t x := by
  unfold update_access_path_weak
  cases h : trie_lookup t ap with
  | none =>
    simp only [trie_lookup]
    by_cases hx : x = ap
    · subst hx; simp [trie_lookup_erase]
    · rw [if_neg (Ne.symm hx), trie_lookup_erase, if_neg hx, if_neg hx]
  | some old =>
    simp only [trie_lookup]
    by_cases hx : x = ap
    · subst hx; simp [trie_lookup_erase]
    · rw [if_neg (Ne.symm hx), trie_lookup_erase, if_neg hx, if_neg hx]

/-- Pointwise order on access tries. -/
def trie_le (t1 t2 : AccessPathTrie Access) : Prop :=
  ∀ ap : AccessPath, opt_access_le (trie_lookup t1 ap) (trie_lookup t2 ap) = true

theorem trie_le_refl (t : AccessPathTrie Access) : trie_le t t :=
  fun ap => opt_access_le_refl (trie_lookup t ap)

theorem trie_le_trans {t1 t2 t3 : AccessPathTrie Access} (h1 : trie_le t1 t2)
    (h2 : trie_le t2 t3) : trie_le t1 t3 :=
  fun ap => opt_access_le_trans _ _ _ (h1 ap) (h2 ap)

theorem weak_update_mono (t : AccessPathTrie Access) (ap : AccessPath) (a : Access) :
    trie_le t (update_access_path_weak t ap a) := by
  intro x
  rw [trie_lookup_weak]
  by_cases hx : x = ap
  · subst hx
    cases h : trie_lookup t x with
    | none => simp [opt_access_le]
    | some old => simp [opt_access_le, Access.le_join_left]
  · simp [if_neg hx, opt_access_le_refl]

theorem weak_update_ge_val (t : AccessPathTrie Access) (ap : AccessPath) (a : Access) :
    opt_access_le (some a) (trie_lookup (update_access_path_weak t ap a) ap) = true := by
  rw [trie_lookup_weak]
  cases h : trie_lookup t ap with
  | none => simp [opt_access_le, Access.le_refl]
  | some old => simp [opt_access_le, Access.le_join_right]

theorem opt_le_lookup_mono {v : Option Access} {t t2 : AccessPathTrie Access}
    {x : AccessPath} (h : opt_access_le v (trie_lookup t x) = true) (h2 : trie_le t t2) :
    opt_access_le v (trie_lookup t2 x) = true :=
  opt_access_le_trans _ _ _ h (h2 x)

theorem weak_update_list_mono (a : Access) (paths : List AccessPath)
    (t : AccessPathTrie Access) : trie_le t (weak_update_list t a paths) := by
  induction paths generalizing t with
  | nil => exact trie_le_refl t
  | cons ap rest ih =>
    exact trie_le_trans (weak_update_mono t ap a) (ih (update_access_path_weak t ap a))

theorem weak_update_list_ge (a : Access) (paths : List AccessPath)
    (t : AccessPathTrie Access) (ap : AccessPath) (h : ap ∈ paths) :
    opt_access_le (some a) (trie_lookup (weak_update_list t a paths) ap) = true := by
  induction paths generalizing t with
  | nil => cases h
  | cons p rest ih =>
    rcases List.mem_cons.mp h with h1 | h1
    · subst h1
      exact opt_le_lookup_mono (weak_update_ge_val t ap a)
        (weak_update_list_mono a rest (update_access_path_weak t ap a))
    · exact ih (update_access_path_weak t p a) h1

theorem strong_update_list_lookup (a : Access) (paths : List AccessPath)
    (t : AccessPathTrie Access) (x : AccessPath) :
    trie_lookup (strong_update_list t a paths) x =
      if x ∈ paths then some a else trie_lookup t x := by
  induction paths generalizing t with
  | nil => simp [strong_update_list]
  | cons p rest ih =>
    simp only [strong_update_list, ih, trie_lookup_update]
    by_cases hr : x ∈ rest
    · simp [hr]
    · by_cases hp : x = p
      · simp [hr, hp]
      · simp [hr, hp]

theorem erase_paths_lookup {α : Type} (paths : List AccessPath) (t : AccessPathTrie α)
    (x : AccessPath) :
    trie_lookup (erase_paths t paths) x =
      if x ∈ paths then none else trie_lookup t x := by
  induction paths generalizing t with
  | nil => simp [erase_paths]
  | cons p rest ih =>
    simp only [erase_paths, ih, trie_lookup_update]
    by_cases hr : x ∈ rest
    · simp [hr]
    · by_cases hp : x = p
      · simp [hr, hp]
      · simp [hr, hp]

theorem join_access_path_mono (node : SubTrie Access) (ap : AccessPath)
    (t : AccessPathTrie Access) : trie_le t (join_access_path t ap node) := by
  induction node generalizing t with
  | nil => exact trie_le_refl t
  | cons e rest ih =>
    obtain ⟨offs, a⟩ := e
    exact trie_le_trans (weak_update_mono t (ap.extend offs) a)
      (ih (update_access_path_weak t (ap.extend offs) a))

theorem join_access_path_mem (node : SubTrie Access) (ap : AccessPath)
    (t : AccessPathTrie Access) (offs : List Offset) (a : Access)
    (h : (offs, a) ∈ node) :
    opt_access_le (some a) (trie_lookup (join_access_path t ap node) (ap.extend offs)) =
      true := by
  induction node generalizing t with
  | nil => cases h
  | cons e rest ih =>
    obtain ⟨offs2, a2⟩ := e
    rcases List.mem_cons.mp h with h1 | h1
    · obtain ⟨h2, h3⟩ := Prod.mk.injEq .. ▸ h1
      subst h2; subst h3
      exact opt_le_lookup_mono (weak_update_ge_val t (ap.extend offs) a)
        (join_access_path_mono rest ap _)
    · exact ih (update_access_path_weak t (ap.extend offs2) a2) h1

theorem attach_constant_ok (c : AddrConst) (node : SubTrie Access)
    (t : AccessPathTrie Access)
    (h : ∀ e ∈ node, e.1 = [] ∨ ∃ g r, e.1 = Offset.global g :: r) :
    ∃ t2, attach_constant c t node = .ok t2 ∧ trie_le t t2 ∧
      ∀ e ∈ node, ∀ g r, e.1 = Offset.global g :: r →
        opt_access_le (some e.2) (trie_lookup t2 ⟨Root.global c g, r⟩) = true := by
  induction node generalizing t with
  | nil => exact ⟨t, rfl, trie_le_refl t, by intro e he; cases he⟩
  | cons e rest ih =>
    obtain ⟨offs, a⟩ := e
    rcases h (offs, a) (List.mem_cons_self _ _) with h1 | ⟨g, r, h1⟩
    · subst h1
      obtain ⟨t2, ht2, hle, hmem⟩ := ih t (fun e he => h e (List.mem_cons_of_mem _ he))
      refine ⟨t2, ht2, hle, ?_⟩
      intro e he g r hgr
      rcases List.mem_cons.mp he with h2 | h2
      · subst h2
        simp at hgr
      · exact hmem e h2 g r hgr
    · subst h1
      obtain ⟨t2, ht2, hle, hmem⟩ :=
        ih (update_access_path_weak t ⟨Root.global c g, r⟩ a)
          (fun e he => h e (List.mem_cons_of_mem _ he))
      refine ⟨t2, ht2, trie_le_trans (weak_update_mono t _ a) hle, ?_⟩
      intro e he g2 r2 hgr
      rcases List.mem_cons.mp he with h2 | h2
      · subst h2
        simp only [List.cons.injEq, Offset.global.injEq] at hgr
        obtain ⟨hg, hr⟩ := hgr
        subst hg; subst hr
        exact opt_le_lookup_mono (weak_update_ge_val t ⟨Root.global c g, r⟩ a) hle
      · exact hmem e h2 g2 r2 hgr

theorem attach_constant_err (c : AddrConst) (node : SubTrie Access)
    (t : AccessPathTrie Access) (e : List Offset × Access) (he : e ∈ node)
    (o : Offset) (r : List Offset) (ho : e.1 = o :: r)
    (hbad : ∀ g, o ≠ Offset.global g) :
    ∃ err, attach_constant c t node = .error err := by
  induction node generalizing t with
  | nil => cases he
  | cons e2 rest ih =>
    obtain ⟨offs, a⟩ := e2
    rcases List.mem_cons.mp he with h1 | h1
    · subst h1
      simp only at ho
      subst ho
      cases o with
      | field f => exact ⟨.badOffsetForAddressBase (Offset.field f), rfl⟩
      | global g => exact absurd rfl (hbad g)
      | vectorIndex => exact ⟨.badOffsetForAddressBase Offset.vectorIndex, rfl⟩
    · match offs, a with
      | [], a => exact ih t h1
      | Offset.global g :: r2, a =>
        exact ih (update_access_path_weak t ⟨Root.global c g, r2⟩ a) h1
      | Offset.field f :: r2, a =>
        exact ⟨.badOffsetForAddressBase (Offset.field f), rfl⟩
      | Offset.vectorIndex :: r2, a =>
        exact ⟨.badOffsetForAddressBase Offset.vectorIndex, rfl⟩

-- =================================================================================================
-- Claims

/-- C3: the access-kind join satisfies the lattice laws: `join(a,a)=a`,
`join(a,b)=join(b,a)`, `join` is associative, `Borrow` is a join identity,
`join(Read,Write)=ReadWriteBorrow`, and `ReadWriteBorrow` is absorbing. -/
theorem c3_access_join_lattice_laws :
    (∀ a : Access, Access.join_val a a = a) ∧
    (∀ a b : Access, Access.join_val a b = Access.join_val b a) ∧
    (∀ a b c : Access,
      Access.join_val (Access.join_val a b) c = Access.join_val a (Access.join_val b c)) ∧
    (∀ x : Access, Access.join_val Access.borrow x = x) ∧
    Access.join_val Access.read Access.write = Access.readWriteBorrow ∧
    (∀ x : Access, Access.join_val Access.readWriteBorrow x = Access.readWriteBorrow) :=
  ⟨fun a => by cases a <;> rfl,
   fun a b => by cases a <;> cases b <;> rfl,
   fun a b c => by cases a <;> cases b <;> cases c <;> rfl,
   fun x => by cases x <;> rfl,
   rfl,
   fun x => by cases x <;> rfl⟩

/-- C9: the access-kind join reports `Unchanged` exactly when its operands are
identical, and joining any `x` with `Borrow` stores `x` itself — so for `x`
distinct from `Borrow` the flag is `Changed` although the stored value did not
change. -/
theorem c9_join_change_flag :
    (∀ a b : Access, (Access.join a b).2 = JoinResult.unchanged ↔ a = b) ∧
    (∀ x : Access, (Access.join x Access.borrow).1 = x) :=
  ⟨fun a b => by cases a <;> cases b <;> simp [Access.join],
   fun x => by cases x <;> rfl⟩

/-- C7: `copy_local(dst, src)` fails with the unbound-local invariant
violation when `src` has no binding; otherwise it strong-updates `dst` to
exactly the address set previously bound to `src`, leaving the accesses and
every other locals entry unchanged. -/
theorem c7_copy_local (s : ReadWriteSetState) (dst src : Nat) :
    (get_local s.locals src = none →
      copy_local s dst src = .error (.copyUnboundLocal src)) ∧
    (∀ v : AbsAddr, get_local s.locals src = some v →
      ∃ s2, copy_local s dst src = .ok s2 ∧
        get_local s2.locals dst = some v ∧
        s2.accesses = s.accesses ∧
        ∀ ap : AccessPath, ap ≠ ⟨Root.loc dst, []⟩ →
          trie_lookup s2.locals ap = trie_lookup s.locals ap) := by
  constructor
  · intro h
    simp [copy_local, h]
  · intro v h
    refine ⟨{ s with locals := bind_local s.locals dst v }, by simp [copy_local, h], ?_, rfl, ?_⟩
    · simp [get_local, bind_local, trie_lookup_update]
    · intro ap hap
      simp [bind_local, trie_lookup_update, hap]

/-- Witness for C7 at a concrete state: local 1 is bound, local 5 is not. -/
theorem c7_copy_local_witness :
    (copy_local { accesses := [], locals := [(⟨Root.loc 1, []⟩, [Addr.constant 7])] } 0 5 =
      .error (.copyUnboundLocal 5)) ∧
    ∃ s2, copy_local { accesses := [], locals := [(⟨Root.loc 1, []⟩, [Addr.constant 7])] } 0 1 =
        .ok s2 ∧
      get_local s2.locals 0 = some [Addr.constant 7] ∧
      s2.accesses = [] ∧
      ∀ ap : AccessPath, ap ≠ ⟨Root.loc 0, []⟩ →
        trie_lookup s2.locals ap =
          trie_lookup [(⟨Root.loc 1, []⟩, [Addr.constant 7])] ap :=
  ⟨(c7_copy_local { accesses := [], locals := [(⟨Root.loc 1, []⟩, [Addr.constant 7])] } 0 5).1 rfl,
   (c7_copy_local { accesses := [], locals := [(⟨Root.loc 1, []⟩, [Addr.constant 7])] } 0 1).2
     [Addr.constant 7] rfl⟩

/-- C10: loading a constant that is not an address constant leaves the entire
abstract state unchanged (the destination's prior binding is neither
overwritten nor erased); only an address-constant load binds the destination
to the singleton constant address set. -/
theorem c10_load_constant (cache : ModuleId × Nat → Option ReadWriteSetState)
    (names : ModuleId × Nat → String × String) (s : ReadWriteSetState) (lhs : Nat)
    (b : Bool) (n8 n64 n128 : Nat) (bs : List Nat) (a : AddrConst) :
    execute cache names s (.load lhs (.boolean b)) = .ok s ∧
    execute cache names s (.load lhs (.u8 n8)) = .ok s ∧
    execute cache names s (.load lhs (.u64 n64)) = .ok s ∧
    execute cache names s (.load lhs (.u128 n128)) = .ok s ∧
    execute cache names s (.load lhs (.byteArray bs)) = .ok s ∧
    execute cache names s (.load lhs (.address a)) =
      .ok { s with locals := bind_local s.locals lhs (AbsAddr.constant a) } :=
  ⟨rfl, rfl, rfl, rfl, rfl, rfl⟩

/-- C8: with the source local unbound, `BorrowField`, `ReadRef`, `FreezeRef`
and `BorrowLoc` leave the abstract state completely unchanged, while
`WriteRef` fails fatally (its `Write` access is recorded through a lookup that
aborts on the unbound referent), regardless of the right-hand operand. -/
theorem c8_unbound_source_asymmetry (cache : ModuleId × Nat → Option ReadWriteSetState)
    (names : ModuleId × Nat → String × String) (s : ReadWriteSetState)
    (rets : List Nat) (a0 a1 : Nat) (mid : ModuleId) (sid : StructId)
    (types : List MvType) (fld : Nat) (h : get_local s.locals a0 = none) :
    execute cache names s (.call rets (.borrowField mid sid types fld) [a0]) = .ok s ∧
    execute cache names s (.call rets .readRef [a0]) = .ok s ∧
    execute cache names s (.call rets .freezeRef [a0]) = .ok s ∧
    execute cache names s (.call rets .borrowLoc [a0]) = .ok s ∧
    execute cache names s (.call rets .writeRef [a0, a1]) =
      .error AnalysisErr.expectUnboundLocal := by
  refine ⟨?_, ?_, ?_, ?_, ?_⟩ <;>
    simp [execute, record_access, local_exists, h]

/-- Witness for C8 at the empty state (both operands unbound). -/
theorem c8_unbound_source_asymmetry_witness :
    execute (fun _ => none) (fun _ => ("", "")) { accesses := [], locals := [] }
        (.call [0] (.borrowField 0 0 [] 0) [1]) = .ok { accesses := [], locals := [] } ∧
    execute (fun _ => none) (fun _ => ("", "")) { accesses := [], locals := [] }
        (.call [0] .readRef [1]) = .ok { accesses := [], locals := [] } ∧
    execute (fun _ => none) (fun _ => ("", "")) { accesses := [], locals := [] }
        (.call [0] .freezeRef [1]) = .ok { accesses := [], locals := [] } ∧
    execute (fun _ => none) (fun _ => ("", "")) { accesses := [], locals := [] }
        (.call [0] .borrowLoc [1]) = .ok { accesses := [], locals := [] } ∧
    execute (fun _ => none) (fun _ => ("", "")) { accesses := [], locals := [] }
        (.call [0] .writeRef [1, 2]) = .error AnalysisErr.expectUnboundLocal :=
  c8_unbound_source_asymmetry (fun _ => none) (fun _ => ("", ""))
    { accesses := [], locals := [] } [0] 1 2 0 0 [] 0 rfl

/-- C6: a call to a native function whose module/function pair is absent from
the hand-written model table is a fatal failure naming the missing function. -/
theorem c6_unmodeled_native (s : ReadWriteSetState) (m f : String)
    (args rets : List Nat) (h : (m, f) ∉ modeled_natives) :
    call_native_function s m f args rets = .error (.unmodeledNative m f) := by
  simp only [modeled_natives, List.mem_cons, List.mem_singleton, not_or] at h
  obtain ⟨h1, h2, h3, h4, h5, h6, h7, h8, h9, h10, h11, h12, h13, h14, h15, h16, h17,
    h18, h19⟩ := h
  simp [call_native_function, h1, h2, h3, h4, h5, h6, h7, h8, h9, h10, h11, h12, h13,
    h14, h15, h16, h17, h18, h19]

/-- Witness for C6 at a concrete unlisted pair. -/
theorem c6_unmodeled_native_witness :
    (("Foo", "bar") ∉ modeled_natives) ∧
    call_native_function { accesses := [], locals := [] } "Foo" "bar" [] [] =
      .error (.unmodeledNative "Foo" "bar") :=
  ⟨by decide, c6_unmodeled_native { accesses := [], locals := [] } "Foo" "bar" [] []
    (by decide)⟩

/-- C2 counterexample: an `Eq` instruction reading through a reference bound to
a path that already carries a recorded `Write` replaces that entry with `Read`
(a strong update), so the resulting accesses map is not pointwise above the
previous one. -/
theorem c2_counterexample :
    execute (fun _ => none) (fun _ => ("", ""))
        { accesses := [(⟨Root.ret 0, []⟩, Access.write)],
          locals := [(⟨Root.loc 0, []⟩, [Addr.footprint ⟨Root.ret 0, []⟩])] }
        (.call [] .eq [0, 5]) =
      .ok { accesses := [(⟨Root.ret 0, []⟩, Access.read)],
            locals := [(⟨Root.loc 0, []⟩, [Addr.footprint ⟨Root.ret 0, []⟩])] } ∧
    opt_access_le
      (trie_lookup [(⟨Root.ret 0, []⟩, Access.write)] ⟨Root.ret 0, []⟩)
      (trie_lookup [(⟨Root.ret 0, []⟩, Access.read)] ⟨Root.ret 0, []⟩) = false :=
  ⟨rfl, rfl⟩

/-- C2 amended: only the updates made through `add_global_access` are weak
(join) updates — there the accesses map is pointwise above its previous value
and the locals are untouched — whereas `record_access` performs a strong
update: every footprint path resolved from the local is set to exactly the
recorded kind (which can replace a stronger previously recorded kind), and
all other access entries are unchanged. -/
theorem c2_amended_weak_vs_strong (s : ReadWriteSetState) :
    (∀ (i : Nat) (mid : ModuleId) (sid : StructId) (types : List MvType) (a : Access)
        (s2 : ReadWriteSetState), add_global_access s i mid sid types a = .ok s2 →
        trie_le s.accesses s2.accesses ∧ s2.locals = s.locals) ∧
    (∀ (i : Nat) (a : Access) (addrs : AbsAddr) (s2 : ReadWriteSetState),
        get_local s.locals i = some addrs → record_access s i a = .ok s2 →
        s2.locals = s.locals ∧
        ∀ x : AccessPath,
          trie_lookup s2.accesses x =
            if x ∈ addrs.footprint_paths then some a else trie_lookup s.accesses x) := by
  constructor
  · intro i mid sid types a s2 h
    unfold add_global_access at h
    cases hg : get_global_paths s i mid sid types with
    | error e => rw [hg] at h; simp at h
    | ok paths =>
      rw [hg] at h
      injection h with h
      subst h
      exact ⟨weak_update_list_mono a paths s.accesses, rfl⟩
  · intro i a addrs s2 hget h
    unfold record_access at h
    rw [hget] at h
    injection h with h
    subst h
    exact ⟨rfl, fun x => strong_update_list_lookup a addrs.footprint_paths s.accesses x⟩

/-- Witness for the amended C2 at concrete states: a weak global access above
an existing `Write`, and a strong recorded access on a bound local. -/
theorem c2_amended_weak_vs_strong_witness :
    (∃ s2, add_global_access
        { accesses := [], locals := [(⟨Root.loc 0, []⟩, [Addr.constant 3])] } 0 1 2 [] .read =
        .ok s2 ∧
      trie_le [] s2.accesses ∧
      s2.locals = [(⟨Root.loc 0, []⟩, [Addr.constant 3])]) ∧
    (∃ s2, record_access
        { accesses := [], locals := [(⟨Root.loc 0, []⟩, [Addr.footprint ⟨Root.ret 0, []⟩])] }
        0 .read = .ok s2 ∧
      s2.locals = [(⟨Root.loc 0, []⟩, [Addr.footprint ⟨Root.ret 0, []⟩])] ∧
      ∀ x : AccessPath,
        trie_lookup s2.accesses x =
          if x ∈ AbsAddr.footprint_paths [Addr.footprint ⟨Root.ret 0, []⟩] then
            some Access.read
          else trie_lookup [] x) := by
  constructor
  · obtain ⟨h1, h2⟩ :=
      (c2_amended_weak_vs_strong
        { accesses := [], locals := [(⟨Root.loc 0, []⟩, [Addr.constant 3])] }).1
        0 1 2 [] .read _ rfl
    exact ⟨_, rfl, h1, h2⟩
  · obtain ⟨h1, h2⟩ :=
      (c2_amended_weak_vs_strong
        { accesses := [],
          locals := [(⟨Root.loc 0, []⟩, [Addr.footprint ⟨Root.ret 0, []⟩])] }).2
        0 .read [Addr.footprint ⟨Root.ret 0, []⟩] _ rfl rfl
    exact ⟨_, rfl, h1, h2⟩

/-- C5: for `MoveFrom`, the transfer function records a `Write` access on every
resolvable resource path (each address of the operand extended by the resource
offset) and erases the locals binding at each such path; the recorded `Write`
entries survive in the final accesses map, which is pointwise above the
initial one. -/
theorem c5_move_from (cache : ModuleId × Nat → Option ReadWriteSetState)
    (names : ModuleId × Nat → String × String) (s : ReadWriteSetState)
    (rets : List Nat) (a_idx : Nat) (mid : ModuleId) (sid : StructId)
    (types : List MvType) (addrs : AbsAddr) (h : get_local s.locals a_idx = some addrs) :
    ∃ s2, execute cache names s (.call rets (.moveFrom mid sid types) [a_idx]) = .ok s2 ∧
      trie_le s.accesses s2.accesses ∧
      ∀ ad ∈ addrs,
        opt_access_le (some Access.write)
          (trie_lookup s2.accesses (ad.add_struct_offset mid sid types)) = true ∧
        trie_lookup s2.locals (ad.add_struct_offset mid sid types) = none := by
  refine ⟨⟨weak_update_list s.accesses Access.write
        (addrs.map (fun v => v.add_struct_offset mid sid types)),
      erase_paths s.locals (addrs.map (fun v => v.add_struct_offset mid sid types))⟩,
    ?_, ?_, ?_⟩
  · simp [execute, add_global_access, remove_global, get_global_paths, h]
  · exact weak_update_list_mono Access.write _ s.accesses
  · intro ad had
    constructor
    · exact weak_update_list_ge Access.write _ s.accesses _
        (List.mem_map_of_mem (fun v => v.add_struct_offset mid sid types) had)
    · rw [erase_paths_lookup,
        if_pos (List.mem_map_of_mem (fun v => v.add_struct_offset mid sid types) had)]

/-- Witness for C5: a `MoveFrom` on a local holding both a constant and a
footprint address. -/
theorem c5_move_from_witness :
    ∃ s2, execute (fun _ => none) (fun _ => ("", ""))
        { accesses := [],
          locals := [(⟨Root.loc 0, []⟩,
            [Addr.constant 9, Addr.footprint ⟨Root.loc 1, []⟩])] }
        (.call [2] (.moveFrom 0 1 []) [0]) = .ok s2 ∧
      trie_le [] s2.accesses ∧
      ∀ ad ∈ ([Addr.constant 9, Addr.footprint ⟨Root.loc 1, []⟩] : AbsAddr),
        opt_access_le (some Access.write)
          (trie_lookup s2.accesses (ad.add_struct_offset 0 1 [])) = true ∧
        trie_lookup s2.locals (ad.add_struct_offset 0 1 []) = none :=
  c5_move_from (fun _ => none) (fun _ => ("", ""))
    { accesses := [],
      locals := [(⟨Root.loc 0, []⟩, [Addr.constant 9, Addr.footprint ⟨Root.loc 1, []⟩])] }
    [2] 0 0 1 [] [Addr.constant 9, Addr.footprint ⟨Root.loc 1, []⟩] rfl

/-- C1: in the re-attachment step of `apply_summary`, a `Footprint(path)`
actual has the formal's recorded access subtree joined into the caller's
accesses at that path preserving all child offsets (the caller map only
grows); a `Constant(c)` actual has each direct child under a global-resource
offset `g` joined at the fresh root `c/g`; and a direct child under any other
offset is a fatal invariant violation. -/
theorem c1_reattach_formal_subtree (acc : AccessPathTrie Access) (node : SubTrie Access) :
    (∀ ap : AccessPath, ∃ t2, attach_actual acc node (Addr.footprint ap) = .ok t2 ∧
        trie_le acc t2 ∧
        ∀ e ∈ node, opt_access_le (some e.2) (trie_lookup t2 (ap.extend e.1)) = true) ∧
    (∀ c : AddrConst,
      (∀ e ∈ node, e.1 = [] ∨ ∃ g r, e.1 = Offset.global g :: r) →
        ∃ t2, attach_actual acc node (Addr.constant c) = .ok t2 ∧ trie_le acc t2 ∧
          ∀ e ∈ node, ∀ (g : StructKey) (r : List Offset), e.1 = Offset.global g :: r →
            opt_access_le (some e.2) (trie_lookup t2 ⟨Root.global c g, r⟩) = true) ∧
    (∀ (c : AddrConst) (e : List Offset × Access), e ∈ node →
      ∀ (o : Offset) (r : List Offset), e.1 = o :: r → (∀ g, o ≠ Offset.global g) →
        ∃ err, attach_actual acc node (Addr.constant c) = .error err) := by
  refine ⟨?_, ?_, ?_⟩
  · intro ap
    refine ⟨join_access_path acc ap node, rfl, join_access_path_mono node ap acc, ?_⟩
    intro e he
    obtain ⟨offs, a⟩ := e
    exact join_access_path_mem node ap acc offs a he
  · intro c hgood
    exact attach_constant_ok c node acc hgood
  · intro c e he o r ho hbad
    exact attach_constant_err c node acc e he o r ho hbad

/-- Witness for C1: a footprint actual and a well-formed constant actual on a
global-offset subtree, and an invariant violation on a field-offset subtree. -/
theorem c1_reattach_formal_subtree_witness :
    (∃ t2, attach_actual [] [([Offset.global ⟨0, 0, []⟩], Access.write)]
        (Addr.footprint ⟨Root.loc 1, []⟩) = .ok t2 ∧
      trie_le [] t2 ∧
      ∀ e ∈ [([Offset.global ⟨0, 0, []⟩], Access.write)],
        opt_access_le (some e.2)
          (trie_lookup t2 (AccessPath.extend ⟨Root.loc 1, []⟩ e.1)) = true) ∧
    (∃ t2, attach_actual [] [([Offset.global ⟨0, 0, []⟩], Access.write)]
        (Addr.constant 7) = .ok t2 ∧
      trie_le [] t2 ∧
      ∀ e ∈ [([Offset.global ⟨0, 0, []⟩], Access.write)],
        ∀ (g : StructKey) (r : List Offset), e.1 = Offset.global g :: r →
          opt_access_le (some e.2) (trie_lookup t2 ⟨Root.global 7 g, r⟩) = true) ∧
    (∃ err, attach_actual [] [([Offset.field 3], Access.read)]
        (Addr.constant 7) = .error err) :=
  ⟨(c1_reattach_formal_subtree [] [([Offset.global ⟨0, 0, []⟩], Access.write)]).1
      ⟨Root.loc 1, []⟩,
   (c1_reattach_formal_subtree [] [([Offset.global ⟨0, 0, []⟩], Access.write)]).2.1 7
     (fun e he => by
       rw [List.mem_singleton] at he
       subst he
       exact Or.inr ⟨⟨0, 0, []⟩, [], rfl⟩),
   (c1_reattach_formal_subtree [] [([Offset.field 3], Access.read)]).2.2 7
     ([Offset.field 3], Access.read) (List.mem_singleton.mpr rfl) (Offset.field 3) [] rfl
     (fun g hcon => Offset.noConfusion hcon)⟩

theorem mem_remove_root {α : Type} (t : AccessPathTrie α) (r : Root) (e : AccessPath × α) :
    e ∈ remove_root t r ↔ e ∈ t ∧ e.1.root ≠ r := by
  simp [remove_root, List.mem_filter]

theorem mem_remove_locals_list (l : List Nat) (t : AccessPathTrie AbsAddr)
    (e : AccessPath × AbsAddr) :
    e ∈ remove_locals_list t l ↔ e ∈ t ∧ ∀ i ∈ l, e.1.root ≠ Root.loc i := by
  induction l generalizing t with
  | nil => simp [remove_locals_list]
  | cons j rest ih =>
    simp only [remove_locals_list, ih, remove_local, mem_remove_root,
      List.forall_mem_cons]
    tauto

theorem trim_params_subset (l : List Nat) (t : AccessPathTrie AbsAddr)
    (e : AccessPath × AbsAddr) (h : e ∈ trim_params t l) : e ∈ t := by
  induction l generalizing t with
  | nil => simpa [trim_params] using h
  | cons j rest ih =>
    simp only [trim_params] at h
    split at h
    · exact ((mem_remove_root _ _ _).mp (ih _ h)).1
    · exact ih _ h

theorem trim_params_keep (l : List Nat) (t : AccessPathTrie AbsAddr)
    (e : AccessPath × AbsAddr) (he : e ∈ t)
    (hr : ∀ j ∈ l, e.1.root ≠ Root.loc j) : e ∈ trim_params t l := by
  induction l generalizing t with
  | nil => simpa [trim_params] using he
  | cons j rest ih =>
    simp only [trim_params]
    split
    · exact ih _ ((mem_remove_root _ _ _).mpr
        ⟨he, hr j (List.mem_cons_self _ _)⟩)
        (fun i hi => hr i (List.mem_cons_of_mem _ hi))
    · exact ih _ he (fun i hi => hr i (List.mem_cons_of_mem _ hi))

theorem trim_params_childful (l : List Nat) (hnd : l.Nodup) (t : AccessPathTrie AbsAddr)
    (e : AccessPath × AbsAddr) (he : e ∈ trim_params t l) (i : Nat)
    (hroot : e.1.root = Root.loc i) (hi : i ∈ l) (_hoffs : e.1.offsets = []) :
    ∃ e2 ∈ trim_params t l, e2.1.root = Root.loc i ∧ e2.1.offsets ≠ [] := by
  induction l generalizing t with
  | nil => cases hi
  | cons j rest ih =>
    obtain ⟨hnj, hndrest⟩ := List.nodup_cons.mp hnd
    simp only [trim_params] at he ⊢
    rcases List.mem_cons.mp hi with hij | hirest
    · subst hij
      split at he
      next hc =>
        have hmem := trim_params_subset rest _ e he
        exact absurd hroot ((mem_remove_root _ _ _).mp hmem).2
      next hc =>
        have hmem : e ∈ t := trim_params_subset rest t e he
        have hhr : has_root t (Root.loc i) = true := by
          unfold has_root
          rw [List.any_eq_true]
          exact ⟨e, hmem, by simp [hroot]⟩
        have hch : root_has_children t (Root.loc i) = true := by
          simp only [hhr, Bool.true_and, Bool.not_eq_true'] at hc
          simpa using hc
        obtain ⟨e2, he2t, hprop⟩ := List.any_eq_true.mp hch
        have hp := of_decide_eq_true hprop
        split
        next hc2 =>
          rw [hhr] at hc2
          rw [hch] at hc2
          simp at hc2
        next hc2 =>
          refine ⟨e2, trim_params_keep rest t e2 he2t ?_, hp.1, hp.2⟩
          intro j2 hj2
          rw [hp.1]
          intro hcon
          injection hcon with hij2
          exact hnj (hij2 ▸ hj2)
    · split at he
      next hc =>
        obtain ⟨e2, he2, hprop⟩ := ih hndrest _ he hirest
        rw [if_pos hc]
        exact ⟨e2, he2, hprop⟩
      next hc =>
        obtain ⟨e2, he2, hprop⟩ := ih hndrest _ he hirest
        rw [if_neg hc]
        exact ⟨e2, he2, hprop⟩

/-- C4: summary extraction drops every locals binding rooted at a
non-parameter, non-return slot, then drops every remaining parameter-rooted
binding whose subtree has no children, and exports the accesses unmodified:
in the exported summary every local-slot root is a parameter, and a
parameter root bound with no offsets always has a child entry alongside it. -/
theorem c4_to_summary (s : ReadWriteSetState) (ft : FunctionTargetModel)
    (hwf : ∀ e ∈ s.locals, ∀ i : Nat, e.1.root = Root.loc i → i < ft.num_locals) :
    (to_summary s ft).accesses = s.accesses ∧
    ∀ e ∈ (to_summary s ft).locals,
      (∀ i : Nat, e.1.root = Root.loc i → i < ft.num_params) ∧
      (∀ i : Nat, e.1.root = Root.loc i → e.1.offsets = [] →
        ∃ e2 ∈ (to_summary s ft).locals,
          e2.1.root = Root.loc i ∧ e2.1.offsets ≠ []) := by
  refine ⟨rfl, ?_⟩
  intro e he
  have hsub : e ∈ remove_locals_list s.locals ft.get_non_parameter_locals :=
    trim_params_subset _ _ e he
  have hmem := (mem_remove_locals_list _ _ _).mp hsub
  have hparam : ∀ i : Nat, e.1.root = Root.loc i → i < ft.num_params := by
    intro i hroot
    by_contra hlt
    push_neg at hlt
    have hiL : i < ft.num_locals := hwf e hmem.1 i hroot
    have hin : i ∈ ft.get_non_parameter_locals := by
      simp [FunctionTargetModel.get_non_parameter_locals, List.mem_filter,
        List.mem_range, hiL, hlt]
    exact hmem.2 i hin hroot
  refine ⟨hparam, ?_⟩
  intro i hroot hoffs
  exact trim_params_childful _ (List.nodup_range _) _ e he i hroot
    (List.mem_range.mpr (hparam i hroot)) hoffs

/-- Witness for C4: a state with a childless parameter binding, a parameter
binding with a child, a non-parameter local binding, and a return binding, in
a procedure with two parameters and four locals. -/
theorem c4_to_summary_witness :
    (to_summary
        { accesses := [(⟨Root.ret 9, []⟩, Access.read)],
          locals := [(⟨Root.loc 0, []⟩, [Addr.constant 1]),
            (⟨Root.loc 1, []⟩, [Addr.constant 2]),
            (⟨Root.loc 1, [Offset.field 0]⟩, [Addr.constant 3]),
            (⟨Root.loc 3, []⟩, [Addr.constant 4]),
            (⟨Root.ret 0, []⟩, [Addr.constant 5])] }
        ⟨2, 4⟩).accesses = [(⟨Root.ret 9, []⟩, Access.read)] ∧
    ∀ e ∈ (to_summary
        { accesses := [(⟨Root.ret 9, []⟩, Access.read)],
          locals := [(⟨Root.loc 0, []⟩, [Addr.constant 1]),
            (⟨Root.loc 1, []⟩, [Addr.constant 2]),
            (⟨Root.loc 1, [Offset.field 0]⟩, [Addr.constant 3]),
            (⟨Root.loc 3, []⟩, [Addr.constant 4]),
            (⟨Root.ret 0, []⟩, [Addr.constant 5])] }
        ⟨2, 4⟩).locals,
      (∀ i : Nat, e.1.root = Root.loc i → i < 2) ∧
      (∀ i : Nat, e.1.root = Root.loc i → e.1.offsets = [] →
        ∃ e2 ∈ (to_summary
            { accesses := [(⟨Root.ret 9, []⟩, Access.read)],
              locals := [(⟨Root.loc 0, []⟩, [Addr.constant 1]),
                (⟨Root.loc 1, []⟩, [Addr.constant 2]),
                (⟨Root.loc 1, [Offset.field 0]⟩, [Addr.constant 3]),
                (⟨Root.loc 3, []⟩, [Addr.constant 4]),
                (⟨Root.ret 0, []⟩, [Addr.constant 5])] }
            ⟨2, 4⟩).locals,
          e2.1.root = Root.loc i ∧ e2.1.offsets ≠ []) :=
  c4_to_summary
    { accesses := [(⟨Root.ret 9, []⟩, Access.read)],
      locals := [(⟨Root.loc 0, []⟩, [Addr.constant 1]),
        (⟨Root.loc 1, []⟩, [Addr.constant 2]),
        (⟨Root.loc 1, [Offset.field 0]⟩, [Addr.constant 3]),
        (⟨Root.loc 3, []⟩, [Addr.constant 4]),
        (⟨Root.ret 0, []⟩, [Addr.constant 5])] }
    ⟨2, 4⟩
    (by
      intro e he i hroot
      simp only [List.mem_cons, List.not_mem_nil, or_false] at he
      rcases he with rfl | rfl | rfl | rfl | rfl <;>
        first
          | (injection hroot with h2; omega)
          | (injection hroot with h2; subst h2; decide)
          | (cases hroot))
